import Mathlib

/-
Verification of the order-lifecycle state machine of the
ConfidentialOtcEscrowWithOZ contract (Solidity, FHEVM-based confidential
OTC escrow).  Addresses, ciphertext handles and timestamps are modelled
as natural numbers; 0 is both the null address and the empty ciphertext
handle sentinel (euint64.wrap(0)).  Each external entry point becomes a
function from contract state and call parameters to
Except OtcError State: a revert is an error and leaves no state behind,
matching the EVM's transactional semantics.  The FHE coprocessor and the
confidential-token ledger are oracles supplied per call (FheEnv).
-/

namespace ConfidentialOtc

abbrev Address := Nat
abbrev Handle := Nat
abbrev Timestamp := Nat

/-- One record of the `orders` mapping (struct `Order` in the contract). -/
structure Order where
  maker : Address
  tokenIn : Address
  tokenOut : Address
  amountInEnc : Handle
  amountOutEnc : Handle
  takerEnc : Handle
  deadline : Timestamp
  filled : Bool
  cancelled : Bool
  takerPayEnc : Handle
  deriving Repr, DecidableEq

/-- Solidity mapping default: the all-zero order record, returned for any
id never written. -/
def zeroOrder : Order :=
  { maker := 0, tokenIn := 0, tokenOut := 0, amountInEnc := 0,
    amountOutEnc := 0, takerEnc := 0, deadline := 0, filled := false,
    cancelled := false, takerPayEnc := 0 }

/-- Events emitted by the contract. -/
inductive Event where
  | orderCreated (id : Nat) (maker tokenIn tokenOut : Address) (deadline : Timestamp)
  | fillRequested (id : Nat) (taker : Address)
  | orderFinalized (id : Nat) (taker : Address)
  | orderCancelled (id : Nat)
  | termsRevealed (id : Nat)
  deriving Repr, DecidableEq

/-- Revert reasons of the contract, plus failures of the two external
collaborators (attestation verifier, confidential token transfer). -/
inductive OtcError where
  | deadlinePast
  | tokenZero
  | onlyMaker
  | closed
  | expired
  | onlyGateway
  | onlyAfterClose
  | gatewayZero
  | attestationInvalid
  | transferFailed
  deriving Repr, DecidableEq

/-- Classification of errors in the spec's taxonomy: wrong caller for a
maker-only or validator-only operation. -/
def OtcError.isAuthorizationError : OtcError → Bool
  | .onlyMaker | .onlyGateway => true
  | _ => false

/-- Classification of errors in the spec's taxonomy: operation attempted
on a closed, expired or not-yet-closed order. -/
def OtcError.isStateError : OtcError → Bool
  | .closed | .expired | .onlyAfterClose => true
  | _ => false

/-- External collaborators consulted during one call: FHE.fromExternal on
euint64 and eaddress handles (none = attestation rejected, the call
reverts), and IERC7984Minimal.confidentialTransferFrom
(token, from, to, externalHandle, attestation; false = the token call
reverts, so the whole enclosing call reverts). -/
structure FheEnv where
  fromExternal64 : Handle → Nat → Option Handle
  fromExternalAddr : Handle → Nat → Option Handle
  transferFromOk : Address → Address → Address → Handle → Nat → Bool

/-- Full storage of the deployed contract.  `self` is address(this);
`acl` records persistent FHE.allow grants; `pub` records handles made
publicly decryptable; `events` is the emitted log, most recent first.
(FHE.allowTransient grants last only for the enclosing transaction and
leave no storage behind, so they are not recorded.) -/
structure EscrowState where
  self : Address
  gateway : Address
  orders : Nat → Order
  nextOrderId : Nat
  acl : List (Handle × Address)
  pub : List Handle
  events : List Event

/-- Pointwise update of the `orders` mapping. -/
def setOrder (f : Nat → Order) (id : Nat) (o : Order) : Nat → Order :=
  fun j => if j = id then o else f j

@[simp] theorem setOrder_same (f : Nat → Order) (id : Nat) (o : Order) :
    setOrder f id o id = o := by simp [setOrder]

@[simp] theorem setOrder_other (f : Nat → Order) (id : Nat) (o : Order)
    (j : Nat) (h : j ≠ id) : setOrder f id o j = f j := by simp [setOrder, h]

/-- The constructor: `require(_gateway != address(0), "gateway=0")`. -/
def deploy (self g : Address) : Except OtcError EscrowState :=
  if g = 0 then .error .gatewayZero
  else .ok { self := self, gateway := g, orders := fun _ => zeroOrder,
             nextOrderId := 0, acl := [], pub := [], events := [] }

/-- createOrder: requires a future deadline and non-null tokens,
optionally escrows the maker's amountOut via the token, imports the
three external handles, stores the new order at nextOrderId (post
incremented), FHE.allows the escrow handle to the contract, and emits
OrderCreated. -/
def createOrder (env : FheEnv) (s : EscrowState) (caller : Address)
    (now : Timestamp) (tokenIn tokenOut : Address)
    (amountInExt amountOutExt maybeTakerExt : Handle) (att : Nat)
    (deadline : Timestamp) (doTransferOut : Bool) :
    Except OtcError (EscrowState × Nat) :=
  if now < deadline then
    if tokenIn ≠ 0 ∧ tokenOut ≠ 0 then
      if doTransferOut = true ∧
          env.transferFromOk tokenOut caller s.self amountOutExt att = false then
        .error .transferFailed
      else
        match env.fromExternal64 amountInExt att,
              env.fromExternal64 amountOutExt att,
              env.fromExternalAddr maybeTakerExt att with
        | some amountIn, some amountOut, some takerHandle =>
            let id := s.nextOrderId
            .ok ({ s with
                    orders := setOrder s.orders id
                      { maker := caller, tokenIn := tokenIn,
                        tokenOut := tokenOut, amountInEnc := amountIn,
                        amountOutEnc := amountOut, takerEnc := takerHandle,
                        deadline := deadline, filled := false,
                        cancelled := false, takerPayEnc := 0 },
                    nextOrderId := id + 1,
                    acl := (amountOut, s.self) :: s.acl,
                    events := .orderCreated id caller tokenIn tokenOut deadline
                                :: s.events }, id)
        | _, _, _ => .error .attestationInvalid
    else .error .tokenZero
  else .error .deadlinePast

/-- cancelOrder: maker only, only while neither filled nor cancelled;
sets cancelled and emits OrderCancelled.  Note: no deadline check. -/
def cancelOrder (s : EscrowState) (caller : Address) (id : Nat) :
    Except OtcError EscrowState :=
  if (s.orders id).maker = caller then
    if (s.orders id).filled = false ∧ (s.orders id).cancelled = false then
      .ok { s with
              orders := setOrder s.orders id { s.orders id with cancelled := true },
              events := .orderCancelled id :: s.events }
    else .error .closed
  else .error .onlyMaker

/-- fillOrder: requires the order neither filled nor cancelled and not
expired, optionally escrows the taker payment via tokenIn, imports the
taker handle and records it in takerPayEnc (unconditionally overwriting
the field), and emits FillRequested. -/
def fillOrder (env : FheEnv) (s : EscrowState) (caller : Address)
    (now : Timestamp) (id : Nat) (takerPayExt : Handle) (att : Nat)
    (doTransferIn : Bool) : Except OtcError EscrowState :=
  if (s.orders id).filled = false ∧ (s.orders id).cancelled = false then
    if now ≤ (s.orders id).deadline then
      if doTransferIn = true ∧
          env.transferFromOk (s.orders id).tokenIn caller s.self takerPayExt att = false then
        .error .transferFailed
      else
        match env.fromExternal64 takerPayExt att with
        | some takerPay =>
            .ok { s with
                    orders := setOrder s.orders id
                      { s.orders id with takerPayEnc := takerPay },
                    events := .fillRequested id caller :: s.events }
        | none => .error .attestationInvalid
    else .error .expired
  else .error .closed

/-- finalizeFill: gateway only, order neither filled nor cancelled, not
expired; sets filled and emits OrderFinalized.  Note: takerPayEnc is not
inspected. -/
def finalizeFill (s : EscrowState) (caller : Address) (now : Timestamp)
    (id : Nat) (taker : Address) : Except OtcError EscrowState :=
  if caller = s.gateway then
    if (s.orders id).filled = false ∧ (s.orders id).cancelled = false then
      if now ≤ (s.orders id).deadline then
        .ok { s with
                orders := setOrder s.orders id { s.orders id with filled := true },
                events := .orderFinalized id taker :: s.events }
      else .error .expired
    else .error .closed
  else .error .onlyGateway

/-- revealTerms: maker only, only after the order is closed
(filled or cancelled); makes the three term handles publicly
decryptable (amountInEnc, then amountOutEnc, then takerEnc) and emits
TermsRevealed.  The order record itself is untouched. -/
def revealTerms (s : EscrowState) (caller : Address) (id : Nat) :
    Except OtcError EscrowState :=
  if (s.orders id).maker = caller then
    if (s.orders id).filled = true ∨ (s.orders id).cancelled = true then
      .ok { s with
              pub := (s.orders id).takerEnc :: (s.orders id).amountOutEnc ::
                       (s.orders id).amountInEnc :: s.pub,
              events := .termsRevealed id :: s.events }
    else .error .onlyAfterClose
  else .error .onlyMaker

/-- isOpen view: neither filled nor cancelled and not expired. -/
def isOpen (s : EscrowState) (now : Timestamp) (id : Nat) : Bool :=
  !(s.orders id).filled && !(s.orders id).cancelled &&
    decide (now ≤ (s.orders id).deadline)

/-- setGateway: only the current gateway may rotate, and the replacement
must be non-null. -/
def setGateway (s : EscrowState) (caller newGateway : Address) :
    Except OtcError EscrowState :=
  if caller = s.gateway then
    if newGateway ≠ 0 then .ok { s with gateway := newGateway }
    else .error .gatewayZero
  else .error .onlyGateway

/-- One ledger transaction against the contract, carrying its caller,
its block timestamp and the oracle answers of the external
collaborators. -/
inductive Action where
  | create (env : FheEnv) (caller : Address) (now : Timestamp)
      (tokenIn tokenOut : Address) (amountInExt amountOutExt maybeTakerExt : Handle)
      (att : Nat) (deadline : Timestamp) (doTransferOut : Bool)
  | cancel (caller : Address) (id : Nat)
  | fill (env : FheEnv) (caller : Address) (now : Timestamp) (id : Nat)
      (takerPayExt : Handle) (att : Nat) (doTransferIn : Bool)
  | finalize (caller : Address) (now : Timestamp) (id : Nat) (taker : Address)
  | reveal (caller : Address) (id : Nat)
  | rotate (caller : Address) (newGateway : Address)

/-- Effect of one transaction: a reverted call leaves the state
unchanged. -/
def applyAction (a : Action) (s : EscrowState) : EscrowState :=
  match a with
  | .create env caller now tin tout aIn aOut mt att dl b =>
      match createOrder env s caller now tin tout aIn aOut mt att dl b with
      | .ok (s', _) => s'
      | .error _ => s
  | .cancel caller id =>
      match cancelOrder s caller id with
      | .ok s' => s'
      | .error _ => s
  | .fill env caller now id ext att b =>
      match fillOrder env s caller now id ext att b with
      | .ok s' => s'
      | .error _ => s
  | .finalize caller now id taker =>
      match finalizeFill s caller now id taker with
      | .ok s' => s'
      | .error _ => s
  | .reveal caller id =>
      match revealTerms s caller id with
      | .ok s' => s'
      | .error _ => s
  | .rotate caller g =>
      match setGateway s caller g with
      | .ok s' => s'
      | .error _ => s

/-- Facts the EVM guarantees about any transaction: msg.sender is never
the zero address, and block.timestamp is positive. -/
def Action.valid : Action → Prop
  | .create _ caller now _ _ _ _ _ _ _ _ => caller ≠ 0 ∧ 0 < now
  | .cancel caller _ => caller ≠ 0
  | .fill _ caller now _ _ _ _ => caller ≠ 0 ∧ 0 < now
  | .finalize caller now _ _ => caller ≠ 0 ∧ 0 < now
  | .reveal caller _ => caller ≠ 0
  | .rotate caller _ => caller ≠ 0

/-- States reachable from a successful deployment by any sequence of
transactions. -/
inductive Reachable : EscrowState → Prop where
  | deployed (self g : Address) (s : EscrowState) (h : deploy self g = .ok s) :
      Reachable s
  | step (a : Action) (s : EscrowState) (hv : a.valid) (h : Reachable s) :
      Reachable (applyAction a s)

/-- Run a list of transactions in order. -/
def run (acts : List Action) (s : EscrowState) : EscrowState :=
  match acts with
  | [] => s
  | a :: rest => run rest (applyAction a s)

/-- The order ids returned by the successful createOrder calls of a run,
in execution order. -/
def createdIds (acts : List Action) (s : EscrowState) : List Nat :=
  match acts with
  | [] => []
  | a :: rest =>
      match a with
      | .create env caller now tin tout aIn aOut mt att dl b =>
          match createOrder env s caller now tin tout aIn aOut mt att dl b with
          | .ok (_, i) => i :: createdIds rest (applyAction a s)
          | .error _ => createdIds rest (applyAction a s)
      | _ => createdIds rest (applyAction a s)

/-- Oracle answering every attestation with the external handle itself
and every transfer with success: used for concrete executions. -/
def idEnv : FheEnv :=
  { fromExternal64 := fun e _ => some e,
    fromExternalAddr := fun e _ => some e,
    transferFromOk := fun _ _ _ _ _ => true }

/-- The state right after deploy 7 5 (contract address 7, gateway 5). -/
def s0 : EscrowState :=
  { self := 7, gateway := 5, orders := fun _ => zeroOrder, nextOrderId := 0,
    acl := [], pub := [], events := [] }

/-- s0 with one order created: maker 1, tokens 2 and 3, amountIn handle
11, amountOut handle 12, taker handle 13, deadline 100, created at time
10; its takerPayEnc is still the empty sentinel 0. -/
def exOpenState : EscrowState :=
  applyAction (.create idEnv 1 10 2 3 11 12 13 0 100 false) s0

/-- exOpenState after a first successful fillOrder by taker 4 at time 20
recording external handle 14. -/
def exFilledReqState : EscrowState :=
  applyAction (.fill idEnv 4 20 0 14 0 false) exOpenState

example : deploy 7 5 = .ok s0 := rfl
example : (exOpenState.orders 0).maker = 1 := by decide
example : (exOpenState.orders 0).takerPayEnc = 0 := by decide
example : exOpenState.nextOrderId = 1 := by decide
example : (exFilledReqState.orders 0).takerPayEnc = 14 := by decide
example : isOpen exOpenState 50 0 = true := by decide
example : isOpen exOpenState 101 0 = false := by decide

/-! Inversion lemmas: what a successful call tells us about the states
before and after it. -/

theorem createOrder_ok (env : FheEnv) (s : EscrowState) (caller : Address)
    (now : Timestamp) (tin tout aIn aOut mt att dl : Nat) (b : Bool)
    (s' : EscrowState) (i : Nat)
    (h : createOrder env s caller now tin tout aIn aOut mt att dl b = .ok (s', i)) :
    i = s.nextOrderId ∧ s'.nextOrderId = s.nextOrderId + 1 ∧
    s'.gateway = s.gateway ∧
    (∀ j, j ≠ s.nextOrderId → s'.orders j = s.orders j) ∧
    (s'.orders s.nextOrderId).filled = false ∧
    (s'.orders s.nextOrderId).cancelled = false ∧
    (s'.orders s.nextOrderId).maker = caller ∧
    (s'.orders s.nextOrderId).deadline = dl ∧
    (s'.orders s.nextOrderId).takerPayEnc = 0 := by
  unfold createOrder at h
  split at h
  · split at h
    · split at h
      · exact absurd h (by simp)
      · split at h
        · cases h
          refine ⟨rfl, rfl, rfl, ?_, by simp, by simp, by simp, by simp, by simp⟩
          intro j hj
          simp [setOrder_other _ _ _ _ hj]
        · exact absurd h (by simp)
    · exact absurd h (by simp)
  · exact absurd h (by simp)

theorem cancelOrder_ok (s : EscrowState) (caller : Address) (id : Nat)
    (s' : EscrowState) (h : cancelOrder s caller id = .ok s') :
    (s.orders id).maker = caller ∧ (s.orders id).filled = false ∧
    (s.orders id).cancelled = false ∧
    s'.orders id = { s.orders id with cancelled := true } ∧
    (∀ j, j ≠ id → s'.orders j = s.orders j) ∧
    s'.nextOrderId = s.nextOrderId ∧ s'.gateway = s.gateway := by
  unfold cancelOrder at h
  split at h
  · split at h
    · cases h
      rename_i hm hfc
      refine ⟨hm, hfc.1, hfc.2, by simp, ?_, rfl, rfl⟩
      intro j hj
      simp [setOrder_other _ _ _ _ hj]
    · exact absurd h (by simp)
  · exact absurd h (by simp)

theorem fillOrder_ok (env : FheEnv) (s : EscrowState) (caller : Address)
    (now : Timestamp) (id : Nat) (ext att : Nat) (b : Bool)
    (s' : EscrowState) (h : fillOrder env s caller now id ext att b = .ok s') :
    (s.orders id).filled = false ∧ (s.orders id).cancelled = false ∧
    now ≤ (s.orders id).deadline ∧
    (∃ tp, env.fromExternal64 ext att = some tp ∧
      s'.orders id = { s.orders id with takerPayEnc := tp }) ∧
    (∀ j, j ≠ id → s'.orders j = s.orders j) ∧
    s'.nextOrderId = s.nextOrderId ∧ s'.gateway = s.gateway := by
  unfold fillOrder at h
  split at h
  · split at h
    · split at h
      · exact absurd h (by simp)
      · split at h
        · cases h
          rename_i hfc hd htr x tp he
          refine ⟨hfc.1, hfc.2, hd, ⟨tp, he, by simp⟩, ?_, rfl, rfl⟩
          intro j hj
          simp [setOrder_other _ _ _ _ hj]
        · exact absurd h (by simp)
    · exact absurd h (by simp)
  · exact absurd h (by simp)

theorem finalizeFill_ok (s : EscrowState) (caller : Address)
    (now : Timestamp) (id : Nat) (taker : Address) (s' : EscrowState)
    (h : finalizeFill s caller now id taker = .ok s') :
    caller = s.gateway ∧ (s.orders id).filled = false ∧
    (s.orders id).cancelled = false ∧ now ≤ (s.orders id).deadline ∧
    s'.orders id = { s.orders id with filled := true } ∧
    (∀ j, j ≠ id → s'.orders j = s.orders j) ∧
    s'.nextOrderId = s.nextOrderId ∧ s'.gateway = s.gateway := by
  unfold finalizeFill at h
  split at h
  · split at h
    · split at h
      · cases h
        rename_i hg hfc hd
        refine ⟨hg, hfc.1, hfc.2, hd, by simp, ?_, rfl, rfl⟩
        intro j hj
        simp [setOrder_other _ _ _ _ hj]
      · exact absurd h (by simp)
    · exact absurd h (by simp)
  · exact absurd h (by simp)

theorem revealTerms_ok (s : EscrowState) (caller : Address) (id : Nat)
    (s' : EscrowState) (h : revealTerms s caller id = .ok s') :
    (s.orders id).maker = caller ∧
    ((s.orders id).filled = true ∨ (s.orders id).cancelled = true) ∧
    s'.orders = s.orders ∧ s'.nextOrderId = s.nextOrderId ∧
    s'.gateway = s.gateway := by
  unfold revealTerms at h
  split at h
  · split at h
    · cases h
      rename_i hm hfc
      exact ⟨hm, hfc, rfl, rfl, rfl⟩
    · exact absurd h (by simp)
  · exact absurd h (by simp)

theorem setGateway_ok (s : EscrowState) (caller g' : Address)
    (s' : EscrowState) (h : setGateway s caller g' = .ok s') :
    caller = s.gateway ∧ g' ≠ 0 ∧ s' = { s with gateway := g' } := by
  unfold setGateway at h
  split at h
  · split at h
    · cases h
      rename_i hg hz
      exact ⟨hg, hz, rfl⟩
    · exact absurd h (by simp)
  · exact absurd h (by simp)

/-! State invariant maintained by every reachable state: the gateway is
never null, ids at or beyond nextOrderId still hold the all-zero record,
and no order is simultaneously filled and cancelled. -/

def Inv (s : EscrowState) : Prop :=
  s.gateway ≠ 0 ∧
  (∀ id, s.nextOrderId ≤ id → s.orders id = zeroOrder) ∧
  (∀ id, ¬((s.orders id).filled = true ∧ (s.orders id).cancelled = true))

theorem Inv_deploy (self g : Address) (s : EscrowState)
    (h : deploy self g = .ok s) : Inv s := by
  unfold deploy at h
  split at h
  · exact absurd h (by simp)
  · cases h
    rename_i hg
    exact ⟨hg, fun id _ => rfl, fun id => by simp [zeroOrder]⟩

theorem Inv_step (a : Action) (s : EscrowState) (hv : a.valid)
    (hInv : Inv s) : Inv (applyAction a s) := by
  obtain ⟨hg, hfresh, hmut⟩ := hInv
  cases a with
  | create env caller now tin tout aIn aOut mt att dl b =>
    simp only [applyAction]
    cases hop : createOrder env s caller now tin tout aIn aOut mt att dl b with
    | error e => exact ⟨hg, hfresh, hmut⟩
    | ok p =>
      obtain ⟨s', i⟩ := p
      obtain ⟨hi, hnext, hgw, hothers, hf, hc, hm, hd, htp⟩ :=
        createOrder_ok env s caller now tin tout aIn aOut mt att dl b s' i hop
      refine ⟨by rw [hgw]; exact hg, ?_, ?_⟩
      · intro id hid
        rw [hnext] at hid
        have h1 : id ≠ s.nextOrderId := by omega
        rw [hothers id h1]
        exact hfresh id (by omega)
      · intro id
        by_cases h1 : id = s.nextOrderId
        · subst h1
          intro hcontra
          rw [hf] at hcontra
          exact absurd hcontra.1 (by simp)
        · rw [hothers id h1]
          exact hmut id
  | cancel caller id =>
    simp only [applyAction]
    cases hop : cancelOrder s caller id with
    | error e => exact ⟨hg, hfresh, hmut⟩
    | ok s' =>
      obtain ⟨hm, hf, hc, hupd, hothers, hnext, hgw⟩ :=
        cancelOrder_ok s caller id s' hop
      refine ⟨by rw [hgw]; exact hg, ?_, ?_⟩
      · intro j hj
        rw [hnext] at hj
        by_cases h1 : j = id
        · subst h1
          have hz := hfresh j hj
          rw [hz] at hm
          simp [zeroOrder] at hm
          exact absurd hm.symm hv
        · rw [hothers j h1]
          exact hfresh j hj
      · intro j
        by_cases h1 : j = id
        · subst h1
          intro hcontra
          rw [hupd] at hcontra
          rw [hf] at hcontra
          exact absurd hcontra.1 (by simp)
        · rw [hothers j h1]
          exact hmut j
  | fill env caller now id ext att b =>
    obtain ⟨hcall, hnow⟩ := hv
    simp only [applyAction]
    cases hop : fillOrder env s caller now id ext att b with
    | error e => exact ⟨hg, hfresh, hmut⟩
    | ok s' =>
      obtain ⟨hf, hc, hd, ⟨tp, he, hupd⟩, hothers, hnext, hgw⟩ :=
        fillOrder_ok env s caller now id ext att b s' hop
      refine ⟨by rw [hgw]; exact hg, ?_, ?_⟩
      · intro j hj
        rw [hnext] at hj
        by_cases h1 : j = id
        · subst h1
          exfalso
          have hz := hfresh j hj
          rw [hz] at hd
          simp [zeroOrder] at hd
          rw [hd] at hnow
          exact absurd hnow (lt_irrefl 0)
        · rw [hothers j h1]
          exact hfresh j hj
      · intro j
        by_cases h1 : j = id
        · subst h1
          intro hcontra
          rw [hupd] at hcontra
          rw [hf] at hcontra
          exact absurd hcontra.1 (by simp)
        · rw [hothers j h1]
          exact hmut j
  | finalize caller now id taker =>
    obtain ⟨hcall, hnow⟩ := hv
    simp only [applyAction]
    cases hop : finalizeFill s caller now id taker with
    | error e => exact ⟨hg, hfresh, hmut⟩
    | ok s' =>
      obtain ⟨hcg, hf, hc, hd, hupd, hothers, hnext, hgw⟩ :=
        finalizeFill_ok s caller now id taker s' hop
      refine ⟨by rw [hgw]; exact hg, ?_, ?_⟩
      · intro j hj
        rw [hnext] at hj
        by_cases h1 : j = id
        · subst h1
          exfalso
          have hz := hfresh j hj
          rw [hz] at hd
          simp [zeroOrder] at hd
          rw [hd] at hnow
          exact absurd hnow (lt_irrefl 0)
        · rw [hothers j h1]
          exact hfresh j hj
      · intro j
        by_cases h1 : j = id
        · subst h1
          intro hcontra
          rw [hupd] at hcontra
          rw [hc] at hcontra
          exact absurd hcontra.2 (by simp)
        · rw [hothers j h1]
          exact hmut j
  | reveal caller id =>
    simp only [applyAction]
    cases hop : revealTerms s caller id with
    | error e => exact ⟨hg, hfresh, hmut⟩
    | ok s' =>
      obtain ⟨hm, hcl, hord, hnext, hgw⟩ := revealTerms_ok s caller id s' hop
      show Inv s'
      refine ⟨by rw [hgw]; exact hg, ?_, ?_⟩
      · intro j hj
        rw [hnext] at hj
        rw [hord]
        exact hfresh j hj
      · intro j
        rw [hord]
        exact hmut j
  | rotate caller g' =>
    simp only [applyAction]
    cases hop : setGateway s caller g' with
    | error e => exact ⟨hg, hfresh, hmut⟩
    | ok s' =>
      obtain ⟨hcg, hz, hs⟩ := setGateway_ok s caller g' s' hop
      show Inv s'
      subst hs
      exact ⟨hz, hfresh, hmut⟩

theorem reachable_Inv (s : EscrowState) (h : Reachable s) : Inv s := by
  induction h with
  | deployed self g s hdep => exact Inv_deploy self g s hdep
  | step a s hv hs ih => exact Inv_step a s hv ih

/-- A closed order (filled or cancelled) is frozen: no transaction
changes its record again. -/
theorem closed_order_frozen (a : Action) (s : EscrowState) (hInv : Inv s)
    (id : Nat)
    (hcl : (s.orders id).filled = true ∨ (s.orders id).cancelled = true) :
    (applyAction a s).orders id = s.orders id := by
  obtain ⟨hg, hfresh, hmut⟩ := hInv
  cases a with
  | create env caller now tin tout aIn aOut mt att dl b =>
    simp only [applyAction]
    cases hop : createOrder env s caller now tin tout aIn aOut mt att dl b with
    | error e => rfl
    | ok p =>
      obtain ⟨s', i⟩ := p
      obtain ⟨hi, hnext, hgw, hothers, hf, hc, hm, hd, htp⟩ :=
        createOrder_ok env s caller now tin tout aIn aOut mt att dl b s' i hop
      have h1 : id ≠ s.nextOrderId := by
        intro h2
        have hz : s.orders id = zeroOrder := hfresh id (by omega)
        rw [hz] at hcl
        simp [zeroOrder] at hcl
      exact hothers id h1
  | cancel caller i =>
    simp only [applyAction]
    cases hop : cancelOrder s caller i with
    | error e => rfl
    | ok s' =>
      obtain ⟨hm, hf, hc, hupd, hothers, hnext, hgw⟩ :=
        cancelOrder_ok s caller i s' hop
      have h1 : id ≠ i := by
        intro h2
        subst h2
        rw [hf, hc] at hcl
        simp at hcl
      exact hothers id h1
  | fill env caller now i ext att b =>
    simp only [applyAction]
    cases hop : fillOrder env s caller now i ext att b with
    | error e => rfl
    | ok s' =>
      obtain ⟨hf, hc, hd, ⟨tp, he, hupd⟩, hothers, hnext, hgw⟩ :=
        fillOrder_ok env s caller now i ext att b s' hop
      have h1 : id ≠ i := by
        intro h2
        subst h2
        rw [hf, hc] at hcl
        simp at hcl
      exact hothers id h1
  | finalize caller now i taker =>
    simp only [applyAction]
    cases hop : finalizeFill s caller now i taker with
    | error e => rfl
    | ok s' =>
      obtain ⟨hcg, hf, hc, hd, hupd, hothers, hnext, hgw⟩ :=
        finalizeFill_ok s caller now i taker s' hop
      have h1 : id ≠ i := by
        intro h2
        subst h2
        rw [hf, hc] at hcl
        simp at hcl
      exact hothers id h1
  | reveal caller i =>
    simp only [applyAction]
    cases hop : revealTerms s caller i with
    | error e => rfl
    | ok s' =>
      obtain ⟨hm, hclosed, hord, hnext, hgw⟩ := revealTerms_ok s caller i s' hop
      show s'.orders id = s.orders id
      rw [hord]
  | rotate caller g' =>
    simp only [applyAction]
    cases hop : setGateway s caller g' with
    | error e => rfl
    | ok s' =>
      obtain ⟨hcg, hz, hs⟩ := setGateway_ok s caller g' s' hop
      show s'.orders id = s.orders id
      subst hs
      rfl

/-! Monotonicity of nextOrderId and strict increase of the ids returned
by successful createOrder calls. -/

theorem applyAction_nextOrderId_le (a : Action) (s : EscrowState) :
    s.nextOrderId ≤ (applyAction a s).nextOrderId := by
  cases a with
  | create env caller now tin tout aIn aOut mt att dl b =>
    simp only [applyAction]
    cases hop : createOrder env s caller now tin tout aIn aOut mt att dl b with
    | error e => exact le_refl _
    | ok p =>
      obtain ⟨s', i⟩ := p
      show s.nextOrderId ≤ s'.nextOrderId
      rw [(createOrder_ok env s caller now tin tout aIn aOut mt att dl b s' i hop).2.1]
      exact Nat.le_succ _
  | cancel caller id =>
    simp only [applyAction]
    cases hop : cancelOrder s caller id with
    | error e => exact le_refl _
    | ok s' =>
      show s.nextOrderId ≤ s'.nextOrderId
      obtain ⟨-, -, -, -, -, hnext, -⟩ := cancelOrder_ok s caller id s' hop
      rw [hnext]
  | fill env caller now id ext att b =>
    simp only [applyAction]
    cases hop : fillOrder env s caller now id ext att b with
    | error e => exact le_refl _
    | ok s' =>
      show s.nextOrderId ≤ s'.nextOrderId
      obtain ⟨-, -, -, -, -, hnext, -⟩ := fillOrder_ok env s caller now id ext att b s' hop
      rw [hnext]
  | finalize caller now id taker =>
    simp only [applyAction]
    cases hop : finalizeFill s caller now id taker with
    | error e => exact le_refl _
    | ok s' =>
      show s.nextOrderId ≤ s'.nextOrderId
      obtain ⟨-, -, -, -, -, -, hnext, -⟩ := finalizeFill_ok s caller now id taker s' hop
      rw [hnext]
  | reveal caller id =>
    simp only [applyAction]
    cases hop : revealTerms s caller id with
    | error e => exact le_refl _
    | ok s' =>
      show s.nextOrderId ≤ s'.nextOrderId
      obtain ⟨-, -, -, hnext, -⟩ := revealTerms_ok s caller id s' hop
      rw [hnext]
  | rotate caller g' =>
    simp only [applyAction]
    cases hop : setGateway s caller g' with
    | error e => exact le_refl _
    | ok s' =>
      show s.nextOrderId ≤ s'.nextOrderId
      obtain ⟨-, -, hs⟩ := setGateway_ok s caller g' s' hop
      subst hs
      exact le_refl _

theorem createdIds_lower (acts : List Action) :
    ∀ (s : EscrowState) (x : Nat), x ∈ createdIds acts s → s.nextOrderId ≤ x := by
  induction acts with
  | nil =>
    intro s x hx
    simp [createdIds] at hx
  | cons a rest ih =>
    intro s x hx
    have hstep := applyAction_nextOrderId_le a s
    cases a with
    | create env caller now tin tout aIn aOut mt att dl b =>
      simp only [createdIds] at hx
      cases hop : createOrder env s caller now tin tout aIn aOut mt att dl b with
      | error e =>
        rw [hop] at hx
        exact le_trans hstep (ih _ x hx)
      | ok p =>
        obtain ⟨s', i⟩ := p
        rw [hop] at hx
        simp only [List.mem_cons] at hx
        obtain ⟨hi, hnext, -⟩ :=
          createOrder_ok env s caller now tin tout aIn aOut mt att dl b s' i hop
        cases hx with
        | inl h => rw [h, hi]
        | inr h => exact le_trans hstep (ih _ x h)
    | cancel caller id =>
      simp only [createdIds] at hx
      exact le_trans hstep (ih _ x hx)
    | fill env caller now id ext att b =>
      simp only [createdIds] at hx
      exact le_trans hstep (ih _ x hx)
    | finalize caller now id taker =>
      simp only [createdIds] at hx
      exact le_trans hstep (ih _ x hx)
    | reveal caller id =>
      simp only [createdIds] at hx
      exact le_trans hstep (ih _ x hx)
    | rotate caller g' =>
      simp only [createdIds] at hx
      exact le_trans hstep (ih _ x hx)

theorem createdIds_pairwise (acts : List Action) :
    ∀ s : EscrowState, List.Pairwise (fun x y => x < y) (createdIds acts s) := by
  induction acts with
  | nil =>
    intro s
    simp [createdIds]
  | cons a rest ih =>
    intro s
    cases a with
    | create env caller now tin tout aIn aOut mt att dl b =>
      simp only [createdIds]
      cases hop : createOrder env s caller now tin tout aIn aOut mt att dl b with
      | error e => exact ih _
      | ok p =>
        obtain ⟨s', i⟩ := p
        obtain ⟨hi, hnext, -⟩ :=
          createOrder_ok env s caller now tin tout aIn aOut mt att dl b s' i hop
        have happ : applyAction (.create env caller now tin tout aIn aOut mt att dl b) s = s' := by
          simp only [applyAction, hop]
        refine List.pairwise_cons.mpr ⟨?_, ih _⟩
        intro y hy
        have hlow := createdIds_lower rest _ y hy
        rw [happ, hnext, hi] at *
        omega
    | cancel caller id =>
      simp only [createdIds]
      exact ih _
    | fill env caller now id ext att b =>
      simp only [createdIds]
      exact ih _
    | finalize caller now id taker =>
      simp only [createdIds]
      exact ih _
    | reveal caller id =>
      simp only [createdIds]
      exact ih _
    | rotate caller g' =>
      simp only [createdIds]
      exact ih _

/-- Whether a call committed (ok) rather than reverted (error). -/
def isOk {α : Type} : Except OtcError α → Bool
  | .ok _ => true
  | .error _ => false

@[simp] theorem isOk_ok {α : Type} (x : α) : isOk (.ok x) = true := rfl

@[simp] theorem isOk_error {α : Type} (e : OtcError) :
    isOk (α := α) (.error e) = false := rfl

/-- exOpenState after the maker (address 1) cancels order 0. -/
def exCancelledState : EscrowState := applyAction (.cancel 1 0) exOpenState

example : (exCancelledState.orders 0).cancelled = true := by decide
example : (exCancelledState.orders 0).filled = false := by decide

/-- C4: in every reachable state no order has filled and cancelled both
true, and a closed order's record never changes again under any further
transaction. -/
theorem filled_cancelled_mutually_exclusive (s : EscrowState)
    (h : Reachable s) :
    (∀ id, ¬((s.orders id).filled = true ∧ (s.orders id).cancelled = true)) ∧
    (∀ (a : Action) (id : Nat),
      (s.orders id).filled = true ∨ (s.orders id).cancelled = true →
      (applyAction a s).orders id = s.orders id) := by
  have hInv := reachable_Inv s h
  exact ⟨hInv.2.2, fun a id hcl => closed_order_frozen a s hInv id hcl⟩

theorem filled_cancelled_mutually_exclusive_witness :
    ¬((exCancelledState.orders 0).filled = true ∧
        (exCancelledState.orders 0).cancelled = true) ∧
    (applyAction (.fill idEnv 4 30 0 99 0 false) exCancelledState).orders 0 =
      exCancelledState.orders 0 := by
  have hr0 : Reachable s0 := .deployed 7 5 s0 rfl
  have hr1 : Reachable exOpenState :=
    .step (.create idEnv 1 10 2 3 11 12 13 0 100 false) s0
      ⟨by decide, by decide⟩ hr0
  have hr2 : Reachable exCancelledState :=
    .step (.cancel 1 0) exOpenState (show (1 : Nat) ≠ 0 by decide) hr1
  have h := filled_cancelled_mutually_exclusive exCancelledState hr2
  exact ⟨h.1 0, h.2 (.fill idEnv 4 30 0 99 0 false) 0 (by decide)⟩

/-- C5: finalizeFill called by any non-gateway caller fails with the
authorization error onlyGateway and leaves the state untouched, and a
successful finalizeFill implies the caller was exactly the registered
gateway. -/
theorem finalizeFill_gateway_only (s : EscrowState) (caller : Address)
    (now : Nat) (id : Nat) (taker : Address) :
    (caller ≠ s.gateway →
      finalizeFill s caller now id taker = .error .onlyGateway ∧
      OtcError.onlyGateway.isAuthorizationError = true ∧
      applyAction (.finalize caller now id taker) s = s) ∧
    (isOk (finalizeFill s caller now id taker) = true → caller = s.gateway) := by
  constructor
  · intro hne
    have herr : finalizeFill s caller now id taker = .error .onlyGateway := by
      unfold finalizeFill
      rw [if_neg hne]
    refine ⟨herr, rfl, ?_⟩
    simp only [applyAction]
    rw [herr]
  · intro hok
    by_contra hne
    have herr : finalizeFill s caller now id taker = .error .onlyGateway := by
      unfold finalizeFill
      rw [if_neg hne]
    rw [herr] at hok
    simp at hok

theorem finalizeFill_gateway_only_witness :
    finalizeFill exOpenState 3 50 0 9 = .error .onlyGateway ∧
    OtcError.onlyGateway.isAuthorizationError = true ∧
    applyAction (.finalize 3 50 0 9) exOpenState = exOpenState :=
  (finalizeFill_gateway_only exOpenState 3 50 0 9).1 (by decide)

/-- C7: setGateway succeeds exactly when the caller is the incumbent
gateway and the proposed replacement is non-null, in which case only the
gateway field changes; any other call reverts and leaves the state
unchanged. -/
theorem setGateway_rotation_rule (s : EscrowState) (caller g' : Address) :
    ((caller = s.gateway ∧ g' ≠ 0) →
      setGateway s caller g' = .ok { s with gateway := g' }) ∧
    (caller ≠ s.gateway → setGateway s caller g' = .error .onlyGateway) ∧
    (g' = 0 → isOk (setGateway s caller g') = false) ∧
    (¬(caller = s.gateway ∧ g' ≠ 0) → applyAction (.rotate caller g') s = s) := by
  refine ⟨?_, ?_, ?_, ?_⟩
  · rintro ⟨h1, h2⟩
    unfold setGateway
    rw [if_pos h1, if_pos h2]
  · intro h1
    unfold setGateway
    rw [if_neg h1]
  · intro h2
    subst h2
    unfold setGateway
    split
    · rw [if_neg (by simp)]
      rfl
    · rfl
  · intro h3
    simp only [applyAction]
    cases hop : setGateway s caller g' with
    | error e => rfl
    | ok s' =>
      obtain ⟨hcg, hz, -⟩ := setGateway_ok s caller g' s' hop
      exact absurd ⟨hcg, hz⟩ h3

theorem setGateway_rotation_rule_witness :
    setGateway s0 5 9 = .ok { s0 with gateway := 9 } ∧
    setGateway s0 3 9 = .error .onlyGateway ∧
    isOk (setGateway s0 5 0) = false ∧
    applyAction (.rotate 3 9) s0 = s0 := by
  refine ⟨?_, ?_, ?_, ?_⟩
  · exact (setGateway_rotation_rule s0 5 9).1 ⟨by decide, by decide⟩
  · exact (setGateway_rotation_rule s0 3 9).2.1 (by decide)
  · exact (setGateway_rotation_rule s0 5 0).2.2.1 rfl
  · exact (setGateway_rotation_rule s0 3 9).2.2.2 (by decide)

/-- C9: every reachable state holds a non-null gateway: the constructor
rejects a null gateway, setGateway rejects a null replacement, and no
other operation writes the field. -/
theorem gateway_never_null (s : EscrowState) (h : Reachable s) :
    s.gateway ≠ 0 ∧ deploy s.self 0 = .error .gatewayZero ∧
    (∀ caller, isOk (setGateway s caller 0) = false) := by
  refine ⟨(reachable_Inv s h).1, rfl, ?_⟩
  intro caller
  unfold setGateway
  split
  · rw [if_neg (by simp)]
    rfl
  · rfl

theorem gateway_never_null_witness :
    s0.gateway ≠ 0 ∧ isOk (setGateway s0 5 0) = false :=
  ⟨(gateway_never_null s0 (.deployed 7 5 s0 rfl)).1,
   (gateway_never_null s0 (.deployed 7 5 s0 rfl)).2.2 5⟩

/-- C1 counterexample: on order 0 of exOpenState no fill-request was ever
recorded (takerPayEnc is the empty sentinel 0), the order is open and
unexpired at time 50, and finalizeFill by the registered gateway (5)
succeeds and sets filled, instead of failing with a StateError. -/
theorem finalize_before_fill_succeeds :
    (exOpenState.orders 0).takerPayEnc = 0 ∧
    exOpenState.gateway = 5 ∧
    isOpen exOpenState 50 0 = true ∧
    isOk (finalizeFill exOpenState 5 50 0 9) = true ∧
    ((applyAction (.finalize 5 50 0 9) exOpenState).orders 0).filled = true := by
  decide

/-- C1 (amended): finalizeFill performs no check that a fill-request has
been recorded: called by the registered gateway on an order that is
neither filled nor cancelled nor expired, it succeeds and sets filled
even when takerPayEnc is still the empty sentinel. -/
theorem finalizeFill_ignores_takerPaymentHandle (s : EscrowState)
    (now : Nat) (id : Nat) (taker : Address)
    (htp : (s.orders id).takerPayEnc = 0)
    (hf : (s.orders id).filled = false) (hc : (s.orders id).cancelled = false)
    (hd : now ≤ (s.orders id).deadline) :
    ∃ s', finalizeFill s s.gateway now id taker = .ok s' ∧
      (s'.orders id).filled = true := by
  unfold finalizeFill
  rw [if_pos rfl, if_pos ⟨hf, hc⟩, if_pos hd]
  exact ⟨_, rfl, by simp⟩

theorem finalizeFill_ignores_takerPaymentHandle_witness :
    (exOpenState.orders 0).takerPayEnc = 0 ∧
    ∃ s', finalizeFill exOpenState exOpenState.gateway 50 0 9 = .ok s' ∧
      (s'.orders 0).filled = true :=
  ⟨by decide,
   finalizeFill_ignores_takerPaymentHandle exOpenState 50 0 9
     (by decide) (by decide) (by decide) (by decide)⟩

/-- C2 counterexample: order 0 of exFilledReqState already carries the
recorded taker payment handle 14 and is still open and unexpired at time
30; a second fillOrder (by taker 6, external handle 15) succeeds instead
of failing with a closed/non-open precondition, and overwrites the
recorded handle. -/
theorem second_fillOrder_overwrites_handle :
    (exFilledReqState.orders 0).takerPayEnc = 14 ∧
    isOpen exFilledReqState 30 0 = true ∧
    isOk (fillOrder idEnv exFilledReqState 6 30 0 15 0 false) = true ∧
    ((applyAction (.fill idEnv 6 30 0 15 0 false) exFilledReqState).orders 0).takerPayEnc
      = 15 := by
  decide

/-- C2 (amended): fillOrder succeeds on any order that is neither filled
nor cancelled nor expired regardless of a previously recorded
takerPayEnc (even a non-empty one), overwriting the field with the newly
imported handle; so the handle is set by every successful fill-request,
not at most once. -/
theorem fillOrder_records_latest_handle (env : FheEnv) (s : EscrowState)
    (caller : Address) (now : Nat) (id : Nat) (ext att tp : Nat)
    (hf : (s.orders id).filled = false) (hc : (s.orders id).cancelled = false)
    (hd : now ≤ (s.orders id).deadline)
    (he : env.fromExternal64 ext att = some tp) :
    ∃ s', fillOrder env s caller now id ext att false = .ok s' ∧
      (s'.orders id).takerPayEnc = tp ∧
      ∀ j, j ≠ id → s'.orders j = s.orders j := by
  unfold fillOrder
  rw [if_pos ⟨hf, hc⟩, if_pos hd, if_neg (by simp), he]
  refine ⟨_, rfl, by simp, ?_⟩
  intro j hj
  simp [setOrder_other _ _ _ _ hj]

theorem fillOrder_records_latest_handle_witness :
    (exFilledReqState.orders 0).takerPayEnc = 14 ∧
    ∃ s', fillOrder idEnv exFilledReqState 6 30 0 15 0 false = .ok s' ∧
      (s'.orders 0).takerPayEnc = 15 ∧
      ∀ j, j ≠ 0 → s'.orders j = exFilledReqState.orders j :=
  ⟨by decide,
   fillOrder_records_latest_handle idEnv exFilledReqState 6 30 0 15 0 15
     (by decide) (by decide) (by decide) rfl⟩

/-- C3 counterexample: at time 200 the deadline (100) of order 0 of
exOpenState has passed and the order reads as not open, yet cancelOrder
by the maker succeeds and marks the order cancelled — cancelOrder takes
no notice of the deadline, contradicting the claim that every
state-changing operation fails after expiry. -/
theorem cancelOrder_succeeds_after_expiry :
    (exOpenState.orders 0).deadline < 200 ∧
    isOpen exOpenState 200 0 = false ∧
    isOk (cancelOrder exOpenState 1 0) = true ∧
    ((applyAction (.cancel 1 0) exOpenState).orders 0).cancelled = true := by
  decide

/-- C3 (amended): once the deadline has passed, fillOrder and
finalizeFill always fail and leave the state unchanged, and revealTerms
still fails while the order is not closed; but cancelOrder has no
deadline check, so the maker can still cancel an unfilled, uncancelled
order after expiry. -/
theorem expired_order_operations (env : FheEnv) (s : EscrowState)
    (caller : Address) (now : Nat) (id : Nat) (ext att : Nat) (b : Bool)
    (taker : Address) (hd : (s.orders id).deadline < now) :
    isOk (fillOrder env s caller now id ext att b) = false ∧
    applyAction (.fill env caller now id ext att b) s = s ∧
    isOk (finalizeFill s caller now id taker) = false ∧
    applyAction (.finalize caller now id taker) s = s ∧
    ((s.orders id).filled = false ∧ (s.orders id).cancelled = false →
      isOk (revealTerms s caller id) = false) ∧
    ((s.orders id).maker = caller ∧ (s.orders id).filled = false ∧
      (s.orders id).cancelled = false →
      isOk (cancelOrder s caller id) = true) := by
  have hfill : isOk (fillOrder env s caller now id ext att b) = false := by
    unfold fillOrder
    split
    · rw [if_neg (Nat.not_le.mpr hd)]
      rfl
    · rfl
  have hfin : isOk (finalizeFill s caller now id taker) = false := by
    unfold finalizeFill
    split
    · split
      · rw [if_neg (Nat.not_le.mpr hd)]
        rfl
      · rfl
    · rfl
  refine ⟨hfill, ?_, hfin, ?_, ?_, ?_⟩
  · simp only [applyAction]
    cases hop : fillOrder env s caller now id ext att b with
    | ok s' =>
      rw [hop] at hfill
      simp at hfill
    | error e => rfl
  · simp only [applyAction]
    cases hop : finalizeFill s caller now id taker with
    | ok s' =>
      rw [hop] at hfin
      simp at hfin
    | error e => rfl
  · intro hopen
    unfold revealTerms
    split
    · rw [if_neg (by simp [hopen.1, hopen.2])]
      rfl
    · rfl
  · rintro ⟨hm, hf, hc⟩
    unfold cancelOrder
    rw [if_pos hm, if_pos ⟨hf, hc⟩]
    rfl

theorem expired_order_operations_witness :
    isOk (fillOrder idEnv exOpenState 1 200 0 33 0 false) = false ∧
    applyAction (.fill idEnv 1 200 0 33 0 false) exOpenState = exOpenState ∧
    isOk (finalizeFill exOpenState 1 200 0 9) = false ∧
    applyAction (.finalize 1 200 0 9) exOpenState = exOpenState ∧
    isOk (revealTerms exOpenState 1 0) = false ∧
    isOk (cancelOrder exOpenState 1 0) = true := by
  have h := expired_order_operations idEnv exOpenState 1 200 0 33 0 false 9
    (by decide)
  exact ⟨h.1, h.2.1, h.2.2.1, h.2.2.2.1, h.2.2.2.2.1 ⟨by decide, by decide⟩,
    h.2.2.2.2.2 ⟨by decide, by decide, by decide⟩⟩

/-- C6: the ids returned by the successful createOrder calls of any run
are pairwise strictly increasing (so never reused), and every successful
createOrder returns the current nextOrderId and increments it by exactly
one. -/
theorem createOrder_ids_strictly_increasing (acts : List Action)
    (s : EscrowState) :
    List.Pairwise (fun x y => x < y) (createdIds acts s) ∧
    (∀ env caller now tin tout aIn aOut mt att dl b s' i,
      createOrder env s caller now tin tout aIn aOut mt att dl b = .ok (s', i) →
      i = s.nextOrderId ∧ s'.nextOrderId = i + 1) := by
  refine ⟨createdIds_pairwise acts s, ?_⟩
  intro env caller now tin tout aIn aOut mt att dl b s' i hop
  obtain ⟨hi, hnext, -⟩ :=
    createOrder_ok env s caller now tin tout aIn aOut mt att dl b s' i hop
  exact ⟨hi, by rw [hnext, hi]⟩

/-- Sample run: create (id 0), cancel it, create again (id 1). -/
def exActs : List Action :=
  [.create idEnv 1 10 2 3 11 12 13 0 100 false,
   .cancel 1 0,
   .create idEnv 4 20 2 3 21 22 23 0 300 false]

theorem createOrder_ids_strictly_increasing_witness :
    List.Pairwise (fun x y => x < y) (createdIds exActs s0) ∧
    (0 = s0.nextOrderId ∧ exOpenState.nextOrderId = 0 + 1) := by
  have h := createOrder_ids_strictly_increasing exActs s0
  exact ⟨h.1, h.2 idEnv 1 10 2 3 11 12 13 0 100 false exOpenState 0 rfl⟩

/-- C8: revealTerms fails with onlyMaker for any non-maker caller, fails
with onlyAfterClose for the maker while the order is still open, and for
the maker of a closed order succeeds, marking exactly the three term
handles publicly decryptable and emitting TermsRevealed while changing
nothing else (orders, gateway, nextOrderId, acl untouched). -/
theorem revealTerms_maker_after_close (s : EscrowState) (caller : Address)
    (id : Nat) :
    ((s.orders id).maker ≠ caller →
      revealTerms s caller id = .error .onlyMaker) ∧
    (((s.orders id).maker = caller ∧ (s.orders id).filled = false ∧
        (s.orders id).cancelled = false) →
      revealTerms s caller id = .error .onlyAfterClose) ∧
    (((s.orders id).maker = caller ∧
        ((s.orders id).filled = true ∨ (s.orders id).cancelled = true)) →
      revealTerms s caller id =
        .ok { s with
                pub := (s.orders id).takerEnc :: (s.orders id).amountOutEnc ::
                         (s.orders id).amountInEnc :: s.pub,
                events := .termsRevealed id :: s.events }) := by
  refine ⟨?_, ?_, ?_⟩
  · intro h1
    unfold revealTerms
    rw [if_neg h1]
  · rintro ⟨hm, hf, hc⟩
    unfold revealTerms
    rw [if_pos hm, if_neg (by simp [hf, hc])]
  · rintro ⟨hm, hcl⟩
    unfold revealTerms
    rw [if_pos hm, if_pos hcl]

theorem revealTerms_maker_after_close_witness :
    revealTerms exCancelledState 1 0 =
      .ok { exCancelledState with
              pub := (exCancelledState.orders 0).takerEnc ::
                       (exCancelledState.orders 0).amountOutEnc ::
                       (exCancelledState.orders 0).amountInEnc ::
                       exCancelledState.pub,
              events := .termsRevealed 0 :: exCancelledState.events } ∧
    revealTerms exCancelledState 6 0 = .error .onlyMaker ∧
    revealTerms exOpenState 1 0 = .error .onlyAfterClose :=
  ⟨(revealTerms_maker_after_close exCancelledState 1 0).2.2
     ⟨by decide, by decide⟩,
   (revealTerms_maker_after_close exCancelledState 6 0).1 (by decide),
   (revealTerms_maker_after_close exOpenState 1 0).2.1
     ⟨by decide, by decide, by decide⟩⟩

/-- C10: for an id on which no order was ever created (id at or beyond
nextOrderId) the stored record is all-zero, isOpen is false, fillOrder
fails with the expired error (the default deadline 0 is always in the
past), finalizeFill by the gateway likewise fails with expired, and
cancelOrder and revealTerms fail with the maker-authorization error for
every non-zero caller — not with a dedicated not-found StateError. -/
theorem nonexistent_order_behaviour (s : EscrowState) (h : Reachable s)
    (id : Nat) (hid : s.nextOrderId ≤ id) (now : Nat) (hnow : 0 < now)
    (env : FheEnv) (caller : Address) (ext att : Nat) (b : Bool)
    (taker : Address) :
    s.orders id = zeroOrder ∧
    isOpen s now id = false ∧
    fillOrder env s caller now id ext att b = .error .expired ∧
    finalizeFill s s.gateway now id taker = .error .expired ∧
    (caller ≠ 0 → cancelOrder s caller id = .error .onlyMaker) ∧
    (caller ≠ 0 → revealTerms s caller id = .error .onlyMaker) ∧
    OtcError.onlyMaker.isAuthorizationError = true ∧
    OtcError.onlyMaker.isStateError = false := by
  have hz : s.orders id = zeroOrder := (reachable_Inv s h).2.1 id hid
  have hdz : (s.orders id).deadline = 0 := by rw [hz]; rfl
  have hn0 : ¬(now ≤ (s.orders id).deadline) := by
    rw [hdz]
    omega
  have hfz : (s.orders id).filled = false := by rw [hz]; rfl
  have hcz : (s.orders id).cancelled = false := by rw [hz]; rfl
  have hmz : (s.orders id).maker = 0 := by rw [hz]; rfl
  refine ⟨hz, ?_, ?_, ?_, ?_, ?_, rfl, rfl⟩
  · unfold isOpen
    rw [hfz, hcz]
    simp [hn0]
  · unfold fillOrder
    rw [if_pos ⟨hfz, hcz⟩, if_neg hn0]
  · unfold finalizeFill
    rw [if_pos rfl, if_pos ⟨hfz, hcz⟩, if_neg hn0]
  · intro hcaller
    unfold cancelOrder
    rw [if_neg (by rw [hmz]; exact fun h2 => hcaller h2.symm)]
  · intro hcaller
    unfold revealTerms
    rw [if_neg (by rw [hmz]; exact fun h2 => hcaller h2.symm)]

theorem nonexistent_order_behaviour_witness :
    s0.orders 3 = zeroOrder ∧
    isOpen s0 1 3 = false ∧
    fillOrder idEnv s0 1 1 3 0 0 false = .error .expired ∧
    finalizeFill s0 s0.gateway 1 3 2 = .error .expired ∧
    cancelOrder s0 1 3 = .error .onlyMaker ∧
    revealTerms s0 1 3 = .error .onlyMaker := by
  have h := nonexistent_order_behaviour s0 (.deployed 7 5 s0 rfl) 3
    (by decide) 1 (by decide) idEnv 1 0 0 false 2
  exact ⟨h.1, h.2.1, h.2.2.1, h.2.2.2.1, h.2.2.2.2.1 (by decide),
    h.2.2.2.2.2.1 (by decide)⟩

end ConfidentialOtc
